import Mathlib

/-!
Runtime registry and option protocol of `runtime/runtime.go`.

A shallow embedding of package `runtime`: the two backend identifiers, the
`ContainerRuntime` interface, `RuntimeConfig`, the process-wide registry
`ContainerRuntimes` with `Register`, and the three option constructors
`WithConfig`, `WithMgmtNet`, `WithKeepMgmtNet`.

Mutable Go state is passed explicitly: a function that mutates the registry or
a runtime instance takes the state before and returns the state after.
-/

namespace Runtime

/-! ## Constants -/

/-- `DockerRuntime = "docker"` (runtime.go:15). -/
def DockerRuntime : String := "docker"

/-- `IgniteRuntime = "ignite"` (runtime.go:16). -/
def IgniteRuntime : String := "ignite"

/-! ## Registry -/

/-- `type Initializer func() ContainerRuntime` (runtime.go:56). A Go function
value is either nil or a function; functions are not comparable in Go, so a
function is represented by an identity drawn from `F`, and `none` is nil. -/
abbrev Initializer (F : Type) := Option F

/-- A value of `map[string]Initializer` (runtime.go:67): a finite map from
names to initializers, two maps being equal when they hold the same entries.
The variable is initialised to a non-nil map and nothing in the package
reassigns it, so the nil map is not a registry state. -/
abbrev Registry (F : Type) := Finmap (fun _ : String => Initializer F)

/-- `var ContainerRuntimes = map[string]Initializer{}` (runtime.go:67): the
initial registry has no entry. -/
def ContainerRuntimes (F : Type) : Registry F := ∅

/-- `func Register(name string, initFn Initializer)` (runtime.go:69-71): the
map assignment `ContainerRuntimes[name] = initFn`, which adds the entry or
replaces the one already stored under `name`. -/
def Register {F : Type} (name : String) (initFn : Initializer F)
    (reg : Registry F) : Registry F :=
  Finmap.insert name initFn reg

/-- Modelled from the spec: the named operation
`Lookup(name) -> (Initializer, found bool)` of section 4.1, which the source
has no function for; it is the comma-ok index expression
`initFn, found := ContainerRuntimes[name]`. An absent name yields the zero
value (the nil initializer) and `false`. The second component is the registry
after the read. -/
def Lookup {F : Type} (name : String) (reg : Registry F) :
    (Initializer F × Bool) × Registry F :=
  match Finmap.lookup name reg with
  | some initFn => ((initFn, true), reg)
  | none => ((none, false), reg)

/-- A sequence of `Register` calls performed in order, first call first. -/
def RegisterAll {F : Type} (calls : List (String × Initializer F))
    (reg : Registry F) : Registry F :=
  calls.foldl (fun acc c => Register c.1 c.2 acc) reg

/-- The initializer of the last call of the sequence whose name is `name`,
if there is such a call. -/
def lastRegistered {F : Type} (name : String) :
    List (String × Initializer F) → Option (Initializer F)
  | [] => none
  | c :: rest =>
    match lastRegistered name rest with
    | some f => some f
    | none => if c.1 = name then some c.2 else none

/-! ## Runtime configuration, interface and options -/

/-- The types the package imports and only passes through: `context.Context`,
the `types` package values, the `interface{}` handle of `CreateContainer` and
`error`. Their declarations are outside `runtime.go`. -/
structure ExternalTypes where
  Context : Type
  MgmtNet : Type
  NodeConfig : Type
  GenericFilter : Type
  GenericContainer : Type
  Handle : Type
  Error : Type

/-- `type RuntimeConfig struct` (runtime.go:60-65). `time.Duration` is a
signed count of nanoseconds. -/
structure RuntimeConfig where
  Timeout : Int
  GracefulShutdown : Bool
  Debug : Bool
  KeepMgmtNet : Bool
deriving DecidableEq, Repr, Inhabited

/-- `type ContainerRuntime interface` (runtime.go:19-54): the method table of
a backend whose instance state has type `σ`. Every method takes the instance
state and returns the state after the call with its results; an `error` or
`interface{}` result is `none` when nil. A pointer argument is represented by
the value it points to. The options handed to `Init` are already resolved
against this instance, so each is a transformer of its state. -/
structure ContainerRuntime (E : ExternalTypes) (σ : Type) where
  Init : List (σ → σ) → σ → σ × Option E.Error
  WithConfig : RuntimeConfig → σ → σ
  WithMgmtNet : E.MgmtNet → σ → σ
  WithKeepMgmtNet : σ → σ
  CreateNet : E.Context → σ → σ × Option E.Error
  DeleteNet : E.Context → σ → σ × Option E.Error
  PullImageIfRequired : E.Context → String → σ → σ × Option E.Error
  CreateContainer : E.Context → E.NodeConfig → σ → σ × (Option E.Handle × Option E.Error)
  StartContainer : E.Context → String → σ → σ × Option E.Error
  StopContainer : E.Context → String → σ → σ × Option E.Error
  ListContainers : E.Context → List E.GenericFilter → σ →
    σ × (List E.GenericContainer × Option E.Error)
  GetNSPath : E.Context → String → σ → σ × (String × Option E.Error)
  Exec : E.Context → String → List String → σ →
    σ × (List Nat × List Nat × Option E.Error)
  ExecNotWait : E.Context → String → List String → σ → σ × Option E.Error
  DeleteContainer : E.Context → String → σ → σ × Option E.Error
  Config : σ → σ × RuntimeConfig
  GetName : σ → σ × String

/-- `type RuntimeOption func(ContainerRuntime)` (runtime.go:58): a function
applied to a runtime instance (its method table and its state) for its effect
on that instance. -/
abbrev RuntimeOption (E : ExternalTypes) (σ : Type) := ContainerRuntime E σ → σ → σ

/-- `func WithConfig(cfg *RuntimeConfig) RuntimeOption` (runtime.go:73-77):
the closure `func(r ContainerRuntime) { r.WithConfig(cfg) }`. -/
def WithConfig {E : ExternalTypes} {σ : Type} (cfg : RuntimeConfig) : RuntimeOption E σ :=
  fun r s => r.WithConfig cfg s

/-- `func WithMgmtNet(mgmt *types.MgmtNet) RuntimeOption` (runtime.go:79-83):
the closure `func(r ContainerRuntime) { r.WithMgmtNet(mgmt) }`. -/
def WithMgmtNet {E : ExternalTypes} {σ : Type} (mgmt : E.MgmtNet) : RuntimeOption E σ :=
  fun r s => r.WithMgmtNet mgmt s

/-- `func WithKeepMgmtNet() RuntimeOption` (runtime.go:85-89): the closure
`func(r ContainerRuntime) { r.WithKeepMgmtNet() }`. -/
def WithKeepMgmtNet {E : ExternalTypes} {σ : Type} : RuntimeOption E σ :=
  fun r s => r.WithKeepMgmtNet s

/-! ### An instance that records the calls made on it -/

/-- One method call on a `ContainerRuntime`, with its arguments; for `Init`
the number of options handed over. -/
inductive Call (E : ExternalTypes) where
  | Init (options : Nat)
  | WithConfig (cfg : RuntimeConfig)
  | WithMgmtNet (mgmt : E.MgmtNet)
  | WithKeepMgmtNet
  | CreateNet (ctx : E.Context)
  | DeleteNet (ctx : E.Context)
  | PullImageIfRequired (ctx : E.Context) (image : String)
  | CreateContainer (ctx : E.Context) (node : E.NodeConfig)
  | StartContainer (ctx : E.Context) (name : String)
  | StopContainer (ctx : E.Context) (name : String)
  | ListContainers (ctx : E.Context) (filters : List E.GenericFilter)
  | GetNSPath (ctx : E.Context) (name : String)
  | Exec (ctx : E.Context) (name : String) (cmd : List String)
  | ExecNotWait (ctx : E.Context) (name : String) (cmd : List String)
  | DeleteContainer (ctx : E.Context) (name : String)
  | Config
  | GetName

/-- The instance whose state is the list of the calls made on it so far,
oldest first: every method appends its own call and returns zero values.
`Init` appends its call and then applies the options in order. -/
def recorder (E : ExternalTypes) : ContainerRuntime E (List (Call E)) where
  Init := fun opts log => (opts.foldl (fun acc o => o acc) (log ++ [Call.Init opts.length]), none)
  WithConfig := fun cfg log => log ++ [Call.WithConfig cfg]
  WithMgmtNet := fun mgmt log => log ++ [Call.WithMgmtNet mgmt]
  WithKeepMgmtNet := fun log => log ++ [Call.WithKeepMgmtNet]
  CreateNet := fun ctx log => (log ++ [Call.CreateNet ctx], none)
  DeleteNet := fun ctx log => (log ++ [Call.DeleteNet ctx], none)
  PullImageIfRequired := fun ctx image log => (log ++ [Call.PullImageIfRequired ctx image], none)
  CreateContainer := fun ctx node log => (log ++ [Call.CreateContainer ctx node], (none, none))
  StartContainer := fun ctx name log => (log ++ [Call.StartContainer ctx name], none)
  StopContainer := fun ctx name log => (log ++ [Call.StopContainer ctx name], none)
  ListContainers := fun ctx filters log => (log ++ [Call.ListContainers ctx filters], ([], none))
  GetNSPath := fun ctx name log => (log ++ [Call.GetNSPath ctx name], ("", none))
  Exec := fun ctx name cmd log => (log ++ [Call.Exec ctx name cmd], ([], [], none))
  ExecNotWait := fun ctx name cmd log => (log ++ [Call.ExecNotWait ctx name cmd], none)
  DeleteContainer := fun ctx name log => (log ++ [Call.DeleteContainer ctx name], none)
  Config := fun log => (log ++ [Call.Config], default)
  GetName := fun log => (log ++ [Call.GetName], "")

/-! ### A backend instance as the spec describes it -/

/-- Modelled from the spec: the state a backend instance keeps for the option
protocol. No backend is in `runtime.go`, only the interface they implement.
The instance "stores its own copy" of the `RuntimeConfig`, "records" the
management network, and carries the mark that `WithKeepMgmtNet` sets; before
any option is applied there is no management network recorded. -/
structure Backend (E : ExternalTypes) where
  config : RuntimeConfig
  mgmtNet : Option E.MgmtNet
  keepMgmtNet : Bool

/-- Modelled from the spec: the backend setter `WithConfig(cfg)`, missing from
the source: "stores config, retrievable via Config()", exposed back
"verbatim". -/
def Backend.WithConfig {E : ExternalTypes} (cfg : RuntimeConfig) (b : Backend E) : Backend E :=
  { b with config := cfg }

/-- Modelled from the spec: the backend setter `WithMgmtNet(mgmt)`, missing
from the source: "backend records it for CreateNet/DeleteNet". -/
def Backend.WithMgmtNet {E : ExternalTypes} (mgmt : E.MgmtNet) (b : Backend E) : Backend E :=
  { b with mgmtNet := some mgmt }

/-- Modelled from the spec: the backend setter `WithKeepMgmtNet()`, missing
from the source: "marks the management network as not to be deleted on
teardown". The mark is a field of the instance of its own: the stored
configuration is "immutable once handed to a runtime via `WithConfig`" and
exposed back "verbatim", and each option's effect is "independent", so this
setter leaves the stored configuration as it is. -/
def Backend.WithKeepMgmtNet {E : ExternalTypes} (b : Backend E) : Backend E :=
  { b with keepMgmtNet := true }

/-- Modelled from the spec: the backend getter `Config()`, missing from the
source: "returns the stored RuntimeConfig by value"; the instance is left as
it was. -/
def Backend.Config {E : ExternalTypes} (b : Backend E) : Backend E × RuntimeConfig :=
  (b, b.config)

/-- Modelled from the spec: a backend over the state `Backend E` whose three
setters and whose getter are the ones above. The other methods of the
interface, which the option protocol does not touch, are taken from `rest`. -/
def backend {E : ExternalTypes} (rest : ContainerRuntime E (Backend E)) :
    ContainerRuntime E (Backend E) :=
  { rest with
    WithConfig := Backend.WithConfig
    WithMgmtNet := Backend.WithMgmtNet
    WithKeepMgmtNet := Backend.WithKeepMgmtNet
    Config := Backend.Config }

/-! ## Registry lemmas -/

theorem lookup_register_same {F : Type} (n : String) (f : Initializer F)
    (reg : Registry F) : Lookup n (Register n f reg) = ((f, true), Register n f reg) := by
  simp [Lookup, Register]

theorem lookup_register_other {F : Type} {n m : String} (h : m ≠ n)
    (f : Initializer F) (reg : Registry F) :
    (Lookup m (Register n f reg)).1 = (Lookup m reg).1 := by
  simp only [Lookup, Register, Finmap.lookup_insert_of_ne _ h]
  cases Finmap.lookup m reg <;> rfl

theorem registerAll_nil {F : Type} (reg : Registry F) : RegisterAll [] reg = reg := rfl

theorem registerAll_cons {F : Type} (c : String × Initializer F)
    (calls : List (String × Initializer F)) (reg : Registry F) :
    RegisterAll (c :: calls) reg = RegisterAll calls (Register c.1 c.2 reg) := rfl

theorem registerAll_append {F : Type} (xs ys : List (String × Initializer F))
    (reg : Registry F) :
    RegisterAll (xs ++ ys) reg = RegisterAll ys (RegisterAll xs reg) := by
  simp [RegisterAll, List.foldl_append]

theorem lookup_registerAll {F : Type} (n : String)
    (calls : List (String × Initializer F)) (reg : Registry F) :
    (Lookup n (RegisterAll calls reg)).1 =
      match lastRegistered n calls with
      | some f => (f, true)
      | none => (Lookup n reg).1 := by
  induction calls generalizing reg with
  | nil => rfl
  | cons c rest ih =>
    rw [registerAll_cons, ih, lastRegistered]
    cases hrest : lastRegistered n rest with
    | some f => rfl
    | none =>
      by_cases hc : c.1 = n
      · subst hc
        simp [lookup_register_same]
      · have hne : n ≠ c.1 := fun h => hc h.symm
        simp [hc, lookup_register_other hne]

theorem lastRegistered_isSome {F : Type} (n : String)
    (calls : List (String × Initializer F)) :
    (lastRegistered n calls).isSome = true ↔ n ∈ calls.map Prod.fst := by
  induction calls with
  | nil => simp [lastRegistered]
  | cons c rest ih =>
    rw [lastRegistered]
    cases hrest : lastRegistered n rest with
    | some f =>
      have : n ∈ rest.map Prod.fst := ih.mp (by simp [hrest])
      simp [this]
    | none =>
      have hnot : n ∉ rest.map Prod.fst := fun h => by
        have := ih.mpr h
        simp [hrest] at this
      by_cases hc : c.1 = n
      · simp [hc]
      · have hne : ¬ n = c.1 := fun h => hc h.symm
        simp only [List.map_cons, List.mem_cons, hne, hnot, or_self, iff_false]
        simp [hc]

theorem found_registerAll_empty {F : Type} (n : String)
    (calls : List (String × Initializer F)) :
    (Lookup n (RegisterAll calls (ContainerRuntimes F))).1.2 = true ↔
      n ∈ calls.map Prod.fst := by
  rw [lookup_registerAll, ← lastRegistered_isSome]
  cases lastRegistered n calls with
  | some f => simp
  | none => simp [Lookup, ContainerRuntimes]

theorem found_iff_mem {F : Type} (n : String) (reg : Registry F) :
    (Lookup n reg).1.2 = true ↔ n ∈ reg := by
  rw [← Finmap.lookup_isSome]
  unfold Lookup
  cases Finmap.lookup n reg <;> simp

theorem mem_registerAll_of_mem {F : Type} (n : String)
    (calls : List (String × Initializer F)) (reg : Registry F) (h : n ∈ reg) :
    n ∈ RegisterAll calls reg := by
  induction calls generalizing reg with
  | nil => exact h
  | cons c rest ih =>
    rw [registerAll_cons]
    exact ih _ (by simp [Register, Finmap.mem_insert, h])

/-! ## Registry theorems -/

/-- C1: last-write-wins registration. Looking up `n` right after
`Register(n, f)` reports found with exactly `f`, from every registry state,
also when `n` was registered before with another initializer `g`, whose entry
is replaced (the registry is the one a single `Register(n, f)` gives). For
every sequence of `Register` calls from every state, the lookup of `n` gives
the initializer of the last call named `n` when there is one, and what the
starting state gave otherwise. -/
theorem register_last_write_wins {F : Type} :
    (∀ (reg : Registry F) (n : String) (f : Initializer F),
      (Lookup n (Register n f reg)).1 = (f, true)) ∧
    (∀ (reg : Registry F) (n : String) (f g : Initializer F),
      (Lookup n (Register n f (Register n g reg))).1 = (f, true) ∧
      Register n f (Register n g reg) = Register n f reg) ∧
    (∀ (reg : Registry F) (calls : List (String × Initializer F)) (n : String),
      (Lookup n (RegisterAll calls reg)).1 =
        match lastRegistered n calls with
        | some f => (f, true)
        | none => (Lookup n reg).1) := by
  refine ⟨?_, ?_, ?_⟩
  · intro reg n f
    rw [lookup_register_same]
  · intro reg n f g
    refine ⟨by rw [lookup_register_same], ?_⟩
    simp [Register, Finmap.insert_insert]
  · intro reg calls n
    exact lookup_registerAll n calls reg

/-- C2: looking up a name that no call of the sequence registered, after any
sequence of `Register` calls from the initial empty registry, reports the nil
initializer with found = false, and the registry after the lookup is the
registry before it, with no entry for the name. -/
theorem lookup_unregistered {F : Type} (calls : List (String × Initializer F))
    (n : String) (h : n ∉ calls.map Prod.fst) :
    (Lookup n (RegisterAll calls (ContainerRuntimes F))).1 = (none, false) ∧
    (Lookup n (RegisterAll calls (ContainerRuntimes F))).2 =
      RegisterAll calls (ContainerRuntimes F) ∧
    n ∉ (Lookup n (RegisterAll calls (ContainerRuntimes F))).2 := by
  have hfound : ¬ (Lookup n (RegisterAll calls (ContainerRuntimes F))).1.2 = true :=
    fun hf => h ((found_registerAll_empty n calls).mp hf)
  have hmem : n ∉ RegisterAll calls (ContainerRuntimes F) :=
    fun hm => hfound ((found_iff_mem n _).mpr hm)
  have hnone : Finmap.lookup n (RegisterAll calls (ContainerRuntimes F)) = none :=
    Finmap.lookup_eq_none.mpr hmem
  have hl : Lookup n (RegisterAll calls (ContainerRuntimes F)) =
      ((none, false), RegisterAll calls (ContainerRuntimes F)) := by
    simp only [Lookup, hnone]
  rw [hl]
  exact ⟨rfl, rfl, hmem⟩

theorem lookup_unregistered_witness :
    IgniteRuntime ∉ [(DockerRuntime, (some 1 : Initializer Nat))].map Prod.fst ∧
    (Lookup IgniteRuntime
      (RegisterAll [(DockerRuntime, (some 1 : Initializer Nat))] (ContainerRuntimes Nat))).1
        = (none, false) :=
  ⟨by decide, (lookup_unregistered [(DockerRuntime, some 1)] IgniteRuntime (by decide)).1⟩

/-- C6: the registry is populated only by registration and never pruned.
After any sequence of `Register` calls from the initial empty registry a name
is found exactly when it is the name of a call of the sequence; and a name
found in any registry state is still found after any further sequence of
`Register` calls. -/
theorem registry_only_grows {F : Type} (calls more : List (String × Initializer F))
    (reg : Registry F) (n : String) :
    ((Lookup n (RegisterAll calls (ContainerRuntimes F))).1.2 = true ↔
      n ∈ calls.map Prod.fst) ∧
    ((Lookup n reg).1.2 = true → (Lookup n (RegisterAll more reg)).1.2 = true) ∧
    ((Lookup n (RegisterAll calls (ContainerRuntimes F))).1.2 = true →
      (Lookup n (RegisterAll (calls ++ more) (ContainerRuntimes F))).1.2 = true) := by
  have hmono : ∀ r : Registry F, (Lookup n r).1.2 = true →
      (Lookup n (RegisterAll more r)).1.2 = true := fun r hr =>
    (found_iff_mem n _).mpr (mem_registerAll_of_mem n more r ((found_iff_mem n r).mp hr))
  refine ⟨found_registerAll_empty n calls, hmono reg, ?_⟩
  intro hf
  rw [registerAll_append]
  exact hmono _ hf

theorem registry_only_grows_witness :
    (Lookup DockerRuntime
      (RegisterAll [(DockerRuntime, (some 1 : Initializer Nat))] (ContainerRuntimes Nat))).1.2
        = true ∧
    (Lookup DockerRuntime
      (RegisterAll ([(DockerRuntime, (some 1 : Initializer Nat))] ++ [(IgniteRuntime, none)])
        (ContainerRuntimes Nat))).1.2 = true :=
  have h := registry_only_grows [(DockerRuntime, (some 1 : Initializer Nat))]
    [(IgniteRuntime, none)] (ContainerRuntimes Nat) DockerRuntime
  ⟨h.1.mpr (by decide), h.2.2 (h.1.mpr (by decide))⟩

/-- C8: `Register` changes only the entry of the name it is given. For every
registry state, names `n` and `m` with `m` different from `n`, and initializer
`f`, the lookup of `m` after `Register(n, f)` gives the same initializer and
the same found flag as the lookup of `m` before it. -/
theorem register_frame {F : Type} (reg : Registry F) (n m : String)
    (f : Initializer F) (h : m ≠ n) :
    (Lookup m (Register n f reg)).1 = (Lookup m reg).1 :=
  lookup_register_other h f reg

theorem register_frame_witness :
    IgniteRuntime ≠ DockerRuntime ∧
    (Lookup IgniteRuntime (Register DockerRuntime (some 7) (ContainerRuntimes Nat))).1 =
      (Lookup IgniteRuntime (ContainerRuntimes Nat)).1 :=
  ⟨by decide, register_frame (ContainerRuntimes Nat) DockerRuntime IgniteRuntime (some 7)
    (by decide)⟩

/-- C9: registration order of distinct backends does not matter. For every
registry state and names `n` different from `m`, registering `(n, f)` then
`(m, g)` gives the same registry as registering `(m, g)` then `(n, f)`; under
one and the same name the two orders give the same registry exactly when the
two initializers are equal. -/
theorem register_comm {F : Type} (reg : Registry F) (n m : String)
    (f g : Initializer F) :
    (n ≠ m → Register m g (Register n f reg) = Register n f (Register m g reg)) ∧
    (Register n g (Register n f reg) = Register n f (Register n g reg) ↔ f = g) := by
  constructor
  · intro h
    simp only [Register]
    exact Finmap.insert_insert_of_ne reg h
  · constructor
    · intro heq
      have h1 := lookup_register_same n g (Register n f reg)
      have h2 := lookup_register_same n f (Register n g reg)
      rw [heq, h2] at h1
      have := congrArg (fun p => p.1.1) h1
      exact this
    · intro hfg
      rw [hfg]

theorem register_comm_witness :
    DockerRuntime ≠ IgniteRuntime ∧
    Register IgniteRuntime (some 2) (Register DockerRuntime (some 1) (ContainerRuntimes Nat)) =
      Register DockerRuntime (some 1) (Register IgniteRuntime (some 2) (ContainerRuntimes Nat)) :=
  ⟨by decide, (register_comm (ContainerRuntimes Nat) DockerRuntime IgniteRuntime
    (some 1) (some 2)).1 (by decide)⟩

/-- C10: the two well-known backend identifiers do not collide. `"docker"`
and `"ignite"` are different strings, and from every registry state, after
`Register(DockerRuntime, f)` and `Register(IgniteRuntime, g)` in either order,
looking up `DockerRuntime` gives `f` and looking up `IgniteRuntime` gives `g`,
both found. -/
theorem docker_ignite_distinct {F : Type} :
    DockerRuntime ≠ IgniteRuntime ∧
    ∀ (reg : Registry F) (f g : Initializer F),
      (Lookup DockerRuntime
        (Register IgniteRuntime g (Register DockerRuntime f reg))).1 = (f, true) ∧
      (Lookup IgniteRuntime
        (Register IgniteRuntime g (Register DockerRuntime f reg))).1 = (g, true) ∧
      (Lookup DockerRuntime
        (Register DockerRuntime f (Register IgniteRuntime g reg))).1 = (f, true) ∧
      (Lookup IgniteRuntime
        (Register DockerRuntime f (Register IgniteRuntime g reg))).1 = (g, true) := by
  have hne : DockerRuntime ≠ IgniteRuntime := by decide
  refine ⟨hne, fun reg f g => ⟨?_, ?_, ?_, ?_⟩⟩
  · rw [lookup_register_other hne, lookup_register_same]
  · rw [lookup_register_same]
  · rw [lookup_register_same]
  · rw [lookup_register_other hne.symm, lookup_register_same]

/-! ## Option theorems -/

/-- C3: each ready-made option invokes exactly its own setter, once, with the
captured argument. On every runtime instance, applying `WithConfig(cfg)` is
the single call `r.WithConfig(cfg)`, applying `WithMgmtNet(mgmt)` the single
call `r.WithMgmtNet(mgmt)`, applying `WithKeepMgmtNet()` the single call
`r.WithKeepMgmtNet()`; on the recording instance the calls made grow by that
one call and no other. A constructor takes only the captured argument and
returns the closure, so no instance is in its scope before the option is
applied. -/
theorem option_invokes_its_setter {E : ExternalTypes} :
    (∀ (σ : Type) (r : ContainerRuntime E σ) (s : σ) (cfg : RuntimeConfig) (mgmt : E.MgmtNet),
      WithConfig cfg r s = r.WithConfig cfg s ∧
      WithMgmtNet mgmt r s = r.WithMgmtNet mgmt s ∧
      WithKeepMgmtNet r s = r.WithKeepMgmtNet s) ∧
    (∀ (log : List (Call E)) (cfg : RuntimeConfig) (mgmt : E.MgmtNet),
      WithConfig cfg (recorder E) log = log ++ [Call.WithConfig cfg] ∧
      WithMgmtNet mgmt (recorder E) log = log ++ [Call.WithMgmtNet mgmt] ∧
      WithKeepMgmtNet (recorder E) log = log ++ [Call.WithKeepMgmtNet]) :=
  ⟨fun _ _ _ _ _ => ⟨rfl, rfl, rfl⟩, fun _ _ _ => ⟨rfl, rfl, rfl⟩⟩

/-- C4: config round trip. On every instance of the backend, applying the
option `WithConfig(cfg)` and then calling `Config()` returns `cfg`, equal in
each of the four fields `Timeout`, `GracefulShutdown`, `Debug` and
`KeepMgmtNet`, and `Config()` leaves the instance as it was. -/
theorem config_round_trip {E : ExternalTypes} (rest : ContainerRuntime E (Backend E))
    (b : Backend E) (cfg : RuntimeConfig) :
    ((backend rest).Config (WithConfig cfg (backend rest) b)).2 = cfg ∧
    ((backend rest).Config (WithConfig cfg (backend rest) b)).2.Timeout = cfg.Timeout ∧
    ((backend rest).Config (WithConfig cfg (backend rest) b)).2.GracefulShutdown
      = cfg.GracefulShutdown ∧
    ((backend rest).Config (WithConfig cfg (backend rest) b)).2.Debug = cfg.Debug ∧
    ((backend rest).Config (WithConfig cfg (backend rest) b)).2.KeepMgmtNet = cfg.KeepMgmtNet ∧
    ((backend rest).Config (WithConfig cfg (backend rest) b)).1 =
      WithConfig cfg (backend rest) b :=
  ⟨rfl, rfl, rfl, rfl, rfl, rfl⟩

/-- C5: options are idempotent when reapplied. On every instance of the
backend, applying an option built by `WithConfig`, `WithMgmtNet` or
`WithKeepMgmtNet` twice leaves the instance in the state that applying it
once gives. -/
theorem option_idempotent {E : ExternalTypes} (rest : ContainerRuntime E (Backend E))
    (b : Backend E) (cfg : RuntimeConfig) (mgmt : E.MgmtNet) :
    WithConfig cfg (backend rest) (WithConfig cfg (backend rest) b) =
      WithConfig cfg (backend rest) b ∧
    WithMgmtNet mgmt (backend rest) (WithMgmtNet mgmt (backend rest) b) =
      WithMgmtNet mgmt (backend rest) b ∧
    WithKeepMgmtNet (backend rest) (WithKeepMgmtNet (backend rest) b) =
      WithKeepMgmtNet (backend rest) b :=
  ⟨rfl, rfl, rfl⟩

/-- C7: options are order-sensitive only where they conflict, and then the
last application wins. On every instance of the backend, two options built by
different constructors give the same state in either order: `WithConfig(cfg)`
with `WithKeepMgmtNet()` for every `cfg`, also one whose `KeepMgmtNet` field
is false (in both orders `Config()` returns `cfg` and the mark is set),
`WithConfig(cfg)` with `WithMgmtNet(mgmt)`, and `WithMgmtNet(mgmt)` with
`WithKeepMgmtNet()`. `WithConfig(c1)` followed by `WithConfig(c2)` gives the
state of `WithConfig(c2)` alone, and `Config()` then returns `c2`. -/
theorem option_order {E : ExternalTypes} (rest : ContainerRuntime E (Backend E))
    (b : Backend E) (cfg c1 c2 : RuntimeConfig) (mgmt : E.MgmtNet) :
    WithKeepMgmtNet (backend rest) (WithConfig cfg (backend rest) b) =
      WithConfig cfg (backend rest) (WithKeepMgmtNet (backend rest) b) ∧
    WithKeepMgmtNet (backend rest)
        (WithConfig { cfg with KeepMgmtNet := false } (backend rest) b) =
      WithConfig { cfg with KeepMgmtNet := false } (backend rest)
        (WithKeepMgmtNet (backend rest) b) ∧
    ((backend rest).Config
        (WithKeepMgmtNet (backend rest) (WithConfig cfg (backend rest) b))).2 = cfg ∧
    ((backend rest).Config
        (WithConfig cfg (backend rest) (WithKeepMgmtNet (backend rest) b))).2 = cfg ∧
    (WithKeepMgmtNet (backend rest) (WithConfig cfg (backend rest) b)).keepMgmtNet = true ∧
    (WithConfig cfg (backend rest) (WithKeepMgmtNet (backend rest) b)).keepMgmtNet = true ∧
    WithMgmtNet mgmt (backend rest) (WithConfig cfg (backend rest) b) =
      WithConfig cfg (backend rest) (WithMgmtNet mgmt (backend rest) b) ∧
    WithMgmtNet mgmt (backend rest) (WithKeepMgmtNet (backend rest) b) =
      WithKeepMgmtNet (backend rest) (WithMgmtNet mgmt (backend rest) b) ∧
    WithConfig c2 (backend rest) (WithConfig c1 (backend rest) b) =
      WithConfig c2 (backend rest) b ∧
    ((backend rest).Config
        (WithConfig c2 (backend rest) (WithConfig c1 (backend rest) b))).2 = c2 :=
  ⟨rfl, rfl, rfl, rfl, rfl, rfl, rfl, rfl, rfl, rfl⟩

end Runtime
